import Mathlib

/-!
# YAC8E: run-state machine, input poller and main loop of `chip8.c`

A shallow embedding of `src/chip8.c`.  The program talks to the SDL library
only through calls; every call the program makes is recorded, in order, in a
trace of `sdl_call` values, and everything SDL answers (status codes, handles,
the events it delivers) is supplied by an `sdl_env`.

Machine integers are natural numbers with explicit reduction modulo `2 ^ 32`
(`uint32_t`) or `2 ^ 8` (`uint8_t`); pointers are natural numbers with `0`
standing for `NULL`.
-/

namespace YAC8E

/-! ## Constants of the SDL2 and C headers used by the program -/

/-- SDL2 header value of `SDL_INIT_TIMER`. -/
def SDL_INIT_TIMER : Nat := 0x00000001
/-- SDL2 header value of `SDL_INIT_AUDIO`. -/
def SDL_INIT_AUDIO : Nat := 0x00000010
/-- SDL2 header value of `SDL_INIT_VIDEO`. -/
def SDL_INIT_VIDEO : Nat := 0x00000020
/-- SDL2 header value of `SDL_WINDOWPOS_CENTERED`. -/
def SDL_WINDOWPOS_CENTERED : Int := 0x2FFF0000
/-- SDL2 header value of `SDL_RENDERER_ACCELERATED`. -/
def SDL_RENDERER_ACCELERATED : Nat := 0x00000002
/-- SDL2 header value of the event type `SDL_QUIT`. -/
def SDL_QUIT : Nat := 0x100
/-- SDL2 header value of the event type `SDL_KEYDOWN`. -/
def SDL_KEYDOWN : Nat := 0x300
/-- SDL2 header value of the event type `SDL_KEYUP`. -/
def SDL_KEYUP : Nat := 0x301
/-- SDL2 header value of the key code `SDLK_ESCAPE`. -/
def SDLK_ESCAPE : Int := 27
/-- C library value of `EXIT_SUCCESS`. -/
def EXIT_SUCCESS : Int := 0
/-- C library value of `EXIT_FAILURE`. -/
def EXIT_FAILURE : Int := 1

/-! ## Data model -/

/-- The fields of an `SDL_Event` the program reads: `event.type` and
`event.key.keysym.sym`. -/
structure SDL_Event where
  type : Nat
  sym : Int
deriving DecidableEq, Repr

/-- SDL container object: the window and renderer pointers (`0` is `NULL`). -/
structure sdl_t where
  window : Nat
  renderer : Nat
deriving DecidableEq, Repr

/-- Emulator configuration object; every field is a `uint32_t`. -/
structure config_t where
  window_height : Nat
  window_width : Nat
  fg_color : Nat
  bg_color : Nat
  scale_factor : Nat
deriving DecidableEq, Repr

/-- Emulator states, in the order of the C enumeration. -/
inductive emulator_state_t where
  | QUIT
  | RUNNING
  | PAUSED
deriving DecidableEq, Repr

/-- The integer tag the C enumeration gives each state. -/
def emulator_state_t.tag : emulator_state_t → Nat
  | .QUIT => 0
  | .RUNNING => 1
  | .PAUSED => 2

/-- CHIP8 machine object. -/
structure chip8_t where
  state : emulator_state_t
deriving DecidableEq, Repr

/-- The value of `chip8_t chip8 = {0}`: the state whose tag is zero. -/
def chip8_zero : chip8_t := { state := emulator_state_t.QUIT }

/-- The value of `sdl_t sdl = {0}`: both pointers `NULL`. -/
def sdl_zero : sdl_t := { window := 0, renderer := 0 }

/-- The value of `config_t config = {0}`. -/
def config_zero : config_t :=
  { window_height := 0, window_width := 0, fg_color := 0, bg_color := 0, scale_factor := 0 }

/-- Every field of the configuration fits its `uint32_t` type. -/
def config_t.fits (config : config_t) : Prop :=
  config.window_height < 2 ^ 32 ∧ config.window_width < 2 ^ 32 ∧ config.fg_color < 2 ^ 32 ∧
    config.bg_color < 2 ^ 32 ∧ config.scale_factor < 2 ^ 32

/-- A valid configuration in the sense of the specification: all fields
populated with `uint32_t` values and `scale_factor ≥ 1`. -/
def config_t.valid (config : config_t) : Prop :=
  config.fits ∧ 1 ≤ config.scale_factor

/-! ## The SDL boundary -/

/-- Log message of `init_sdl` when `SDL_Init` fails. -/
def msg_init : String := "Could not initialize SDL subsystems! %s\n"
/-- Log message of `init_sdl` when window creation fails. -/
def msg_window : String := "Could not create SDL window %s\n"
/-- Log message of `init_sdl` when renderer creation fails. -/
def msg_renderer : String := "Could not create SDL renderer %s\n"
/-- Window title passed by `init_sdl`. -/
def window_title : String := "YAC8 Emulator"

/-- One call into SDL, with its arguments and (where the program reads it)
the value SDL returned. -/
inductive sdl_call where
  | SDL_Init (flags : Nat) (ret : Int)
  | SDL_Log (fmt : String)
  | SDL_CreateWindow (title : String) (x y w h : Int) (flags : Nat) (ret : Nat)
  | SDL_CreateRenderer (window : Nat) (index : Int) (flags : Nat) (ret : Nat)
  | SDL_DestroyRenderer (renderer : Nat)
  | SDL_DestroyWindow (window : Nat)
  | SDL_Quit
  | SDL_SetRenderDrawColor (renderer : Nat) (r g b a : Nat)
  | SDL_RenderClear (renderer : Nat)
  | SDL_RenderPresent (renderer : Nat)
  | SDL_PollEvent (ret : Option SDL_Event)
  | SDL_Delay (ms : Nat)
deriving DecidableEq, Repr

/-- What SDL answers during one run: the status of `SDL_Init`, the pointers
returned by `SDL_CreateWindow` and `SDL_CreateRenderer`, and for every loop
tick the events that have become pending when that tick polls. -/
structure sdl_env where
  init_status : Int
  window : Nat
  renderer : Nat
  events : Nat → List SDL_Event

/-! ## Machine arithmetic -/

/-- Conversion of a `uint32_t` value to the `int` parameter of an SDL call
(two's complement, 32 bits). -/
def uint32_to_int (n : Nat) : Int :=
  if n % 2 ^ 32 < 2 ^ 31 then ((n % 2 ^ 32 : Nat) : Int) else ((n % 2 ^ 32 : Nat) : Int) - 2 ^ 32

/-- Product of two `uint32_t` values, as C computes it. -/
def uint32_mul (a b : Nat) : Nat := (a * b) % 2 ^ 32

/-- Conversion to `uint8_t`. -/
def to_uint8 (n : Nat) : Nat := n % 2 ^ 8

/-! ## The functions of `chip8.c` -/

/-- Function `init_sdl`: returns the success flag, the updated container and the calls made. -/
def init_sdl (sdl : sdl_t) (config : config_t) (env : sdl_env) : Bool × sdl_t × List sdl_call :=
  let c_init := sdl_call.SDL_Init (SDL_INIT_VIDEO ||| SDL_INIT_AUDIO ||| SDL_INIT_TIMER) env.init_status
  if env.init_status ≠ 0 then
    (false, sdl, [c_init, sdl_call.SDL_Log msg_init])
  else
    let c_window := sdl_call.SDL_CreateWindow window_title SDL_WINDOWPOS_CENTERED
      SDL_WINDOWPOS_CENTERED
      (uint32_to_int (uint32_mul config.window_width config.scale_factor))
      (uint32_to_int (uint32_mul config.window_height config.scale_factor))
      0 env.window
    let sdl1 : sdl_t := { sdl with window := env.window }
    if sdl1.window = 0 then
      (false, sdl1, [c_init, c_window, sdl_call.SDL_Log msg_window])
    else
      let c_renderer := sdl_call.SDL_CreateRenderer sdl1.window (-1) SDL_RENDERER_ACCELERATED
        env.renderer
      let sdl2 : sdl_t := { sdl1 with renderer := env.renderer }
      if sdl2.renderer = 0 then
        (false, sdl2, [c_init, c_window, c_renderer, sdl_call.SDL_Log msg_renderer])
      else
        (true, sdl2, [c_init, c_window, c_renderer])

/-- The override loop of `set_config_from_args`: for `i = 1 .. argc - 1` it
reads `argv[i]` and changes nothing. -/
def args_loop (config : config_t) : List String → config_t
  | [] => config
  | _ :: rest => args_loop config rest

/-- Function `set_config_from_args`: overwrites the configuration with the defaults,
runs the override loop, and reports success. -/
def set_config_from_args (_config : config_t) (argc : Int) (argv : List String) :
    Bool × config_t :=
  let config : config_t :=
    { window_width := 64
      window_height := 32
      fg_color := 0xFFFFFFFF
      bg_color := 0xFFFF00FF
      scale_factor := 20 }
  (true, args_loop config ((argv.take argc.toNat).drop 1))

/-- Function `init_chip8`: sets the state to `RUNNING` and reports success. -/
def init_chip8 (chip8 : chip8_t) : Bool × chip8_t :=
  (true, { chip8 with state := emulator_state_t.RUNNING })

/-- Function `final_cleanup`: the three release calls, in program order. -/
def final_cleanup (sdl : sdl_t) : List sdl_call :=
  [sdl_call.SDL_DestroyRenderer sdl.renderer, sdl_call.SDL_DestroyWindow sdl.window,
    sdl_call.SDL_Quit]

/-- Function `clear_screen`: decodes the background colour and clears the renderer. -/
def clear_screen (sdl : sdl_t) (config : config_t) : List sdl_call :=
  let r := to_uint8 ((config.bg_color >>> 24) &&& 0xFF)
  let g := to_uint8 ((config.bg_color >>> 16) &&& 0xFF)
  let b := to_uint8 ((config.bg_color >>> 8) &&& 0xFF)
  let a := to_uint8 ((config.bg_color >>> 0) &&& 0xFF)
  [sdl_call.SDL_SetRenderDrawColor sdl.renderer r g b a, sdl_call.SDL_RenderClear sdl.renderer]

/-- Function `update_screen`: presents the frame. -/
def update_screen (sdl : sdl_t) : List sdl_call :=
  [sdl_call.SDL_RenderPresent sdl.renderer]

/-- Function `handle_input` on the queue of pending events: returns the machine, the
events still queued when the function returns, and the `SDL_PollEvent` calls
made (each with the event it delivered, `none` for the empty queue). -/
def handle_input (chip8 : chip8_t) : List SDL_Event → chip8_t × List SDL_Event × List sdl_call
  | [] => (chip8, [], [sdl_call.SDL_PollEvent none])
  | event :: rest =>
    if event.type = SDL_QUIT then
      ({ chip8 with state := emulator_state_t.QUIT }, rest, [sdl_call.SDL_PollEvent (some event)])
    else if event.type = SDL_KEYDOWN then
      if event.sym = SDLK_ESCAPE then
        ({ chip8 with state := emulator_state_t.QUIT }, rest,
          [sdl_call.SDL_PollEvent (some event)])
      else
        let r := handle_input chip8 rest
        (r.1, r.2.1, sdl_call.SDL_PollEvent (some event) :: r.2.2)
    else if event.type = SDL_KEYUP then
      let r := handle_input chip8 rest
      (r.1, r.2.1, sdl_call.SDL_PollEvent (some event) :: r.2.2)
    else
      let r := handle_input chip8 rest
      (r.1, r.2.1, sdl_call.SDL_PollEvent (some event) :: r.2.2)

/-- One execution of the body of the main loop at tick `tick`, with `queue`
the events left over from earlier polls: poll, delay, present. -/
def loop_body (sdl : sdl_t) (env : sdl_env) (chip8 : chip8_t) (queue : List SDL_Event)
    (tick : Nat) : chip8_t × List SDL_Event × List sdl_call :=
  let r := handle_input chip8 (queue ++ env.events tick)
  (r.1, r.2.1, r.2.2 ++ [sdl_call.SDL_Delay 16] ++ update_screen sdl)

/-- The main emulator loop `while (chip8.state != QUIT) { ... }`, started at
tick `tick`.  `fuel` bounds the number of iterations; the result is `none`
when the loop is still running after `fuel` iterations. -/
def main_loop (sdl : sdl_t) (env : sdl_env) :
    Nat → chip8_t → List SDL_Event → Nat → Option (chip8_t × List sdl_call)
  | fuel, chip8, queue, tick =>
    if chip8.state = emulator_state_t.QUIT then some (chip8, [])
    else
      match fuel with
      | 0 => none
      | fuel + 1 =>
        let r := loop_body sdl env chip8 queue tick
        match main_loop sdl env fuel r.1 r.2.1 (tick + 1) with
        | none => none
        | some (chip8', trace) => some (chip8', r.2.2 ++ trace)

/-- Function `main`: returns the exit status and the trace of SDL calls, or `none` when
the main loop is still running after `fuel` iterations. -/
def main (argc : Int) (argv : List String) (env : sdl_env) (fuel : Nat) :
    Option (Int × List sdl_call) :=
  let rc := set_config_from_args config_zero argc argv
  if ¬ rc.1 then some (EXIT_FAILURE, [])
  else
    let config := rc.2
    let rs := init_sdl sdl_zero config env
    if ¬ rs.1 then some (EXIT_FAILURE, rs.2.2)
    else
      let sdl := rs.2.1
      let rm := init_chip8 chip8_zero
      if ¬ rm.1 then some (EXIT_FAILURE, rs.2.2)
      else
        let chip8 := rm.2
        let t_clear := clear_screen sdl config
        match main_loop sdl env fuel chip8 [] 0 with
        | none => none
        | some (_, t_loop) => some (EXIT_SUCCESS, rs.2.2 ++ t_clear ++ t_loop ++ final_cleanup sdl)

/-! ## Observers used to state the properties -/

/-- The event is a terminal signal: a window-close event, or a key-down event
whose key is Escape. -/
def is_terminal (event : SDL_Event) : Prop :=
  event.type = SDL_QUIT ∨ (event.type = SDL_KEYDOWN ∧ event.sym = SDLK_ESCAPE)

instance is_terminal_decidable : DecidablePred is_terminal := fun event => by
  unfold is_terminal; exact inferInstance

/-- The event is a key-up event, or a key-down event for a key other than Escape. -/
def is_plain_key (event : SDL_Event) : Prop :=
  event.type = SDL_KEYUP ∨ (event.type = SDL_KEYDOWN ∧ event.sym ≠ SDLK_ESCAPE)

instance is_plain_key_decidable : DecidablePred is_plain_key := fun event => by
  unfold is_plain_key; exact inferInstance

/-- The `SDL_PollEvent` calls that deliver the given events, in order. -/
def polls (events : List SDL_Event) : List sdl_call :=
  events.map (fun event => sdl_call.SDL_PollEvent (some event))

/-- Repeated calls of `handle_input`, one per batch: before each call the
batch is appended to the events the previous call left queued. -/
def handle_input_iter (chip8 : chip8_t) (queue : List SDL_Event) :
    List (List SDL_Event) → chip8_t × List SDL_Event
  | [] => (chip8, queue)
  | batch :: later =>
    let r := handle_input chip8 (queue ++ batch)
    handle_input_iter r.1 r.2.1 later

/-- The sizes `(w, h)` of the `SDL_CreateWindow` calls of a trace, in order. -/
def window_requests : List sdl_call → List (Int × Int)
  | [] => []
  | sdl_call.SDL_CreateWindow _ _ _ w h _ _ :: rest => (w, h) :: window_requests rest
  | _ :: rest => window_requests rest

/-- An environment in which every SDL call succeeds and no event ever arrives. -/
def env_quiet : sdl_env :=
  { init_status := 0, window := 1, renderer := 2, events := fun _ => [] }

/-- A valid configuration whose scaled width does not fit in 32 bits. -/
def config_wide : config_t :=
  { window_height := 32, window_width := 65536, fg_color := 0xFFFFFFFF, bg_color := 0xFFFF00FF,
    scale_factor := 65536 }

/-- The configuration `set_config_from_args` produces. -/
def default_config : config_t :=
  { window_width := 64, window_height := 32, fg_color := 0xFFFFFFFF, bg_color := 0xFFFF00FF,
    scale_factor := 20 }

/-- The three resources the program acquires from SDL. -/
inductive resource where
  | subsystem
  | window (handle : Nat)
  | renderer (handle : Nat)
deriving DecidableEq, Repr

/-- The resources successfully acquired by the calls of a trace, in order of
acquisition: a successful `SDL_Init`, a window or renderer creation that
returned a non-null handle. -/
def acquired : List sdl_call → List resource
  | [] => []
  | sdl_call.SDL_Init _ ret :: rest =>
    if ret = 0 then resource.subsystem :: acquired rest else acquired rest
  | sdl_call.SDL_CreateWindow _ _ _ _ _ _ ret :: rest =>
    if ret ≠ 0 then resource.window ret :: acquired rest else acquired rest
  | sdl_call.SDL_CreateRenderer _ _ _ ret :: rest =>
    if ret ≠ 0 then resource.renderer ret :: acquired rest else acquired rest
  | _ :: rest => acquired rest

/-- The resources released by the calls of a trace, in order of release. -/
def released : List sdl_call → List resource
  | [] => []
  | sdl_call.SDL_DestroyRenderer handle :: rest => resource.renderer handle :: released rest
  | sdl_call.SDL_DestroyWindow handle :: rest => resource.window handle :: released rest
  | sdl_call.SDL_Quit :: rest => resource.subsystem :: released rest
  | _ :: rest => released rest

/-- The arguments of the `SDL_Delay` calls of a trace, in order. -/
def delays : List sdl_call → List Nat
  | [] => []
  | sdl_call.SDL_Delay ms :: rest => ms :: delays rest
  | _ :: rest => delays rest

/-- The renderers of the `SDL_RenderPresent` calls of a trace, in order. -/
def presents : List sdl_call → List Nat
  | [] => []
  | sdl_call.SDL_RenderPresent renderer :: rest => renderer :: presents rest
  | _ :: rest => presents rest

/-- Every step of startup succeeds: `SDL_Init` returns `0`, and the window and
the renderer are non-null. -/
def startup_ok (env : sdl_env) : Prop :=
  env.init_status = 0 ∧ env.window ≠ 0 ∧ env.renderer ≠ 0

instance startup_ok_decidable : DecidablePred startup_ok := fun env => by
  unfold startup_ok; exact inferInstance

/-- An environment in which window creation fails. -/
def env_no_window : sdl_env :=
  { init_status := 0, window := 0, renderer := 0, events := fun _ => [] }

/-- An environment in which renderer creation fails. -/
def env_no_renderer : sdl_env :=
  { init_status := 0, window := 1, renderer := 0, events := fun _ => [] }

/-- An environment in which startup succeeds and a single window-close event
is pending at the first poll. -/
def env_close : sdl_env :=
  { init_status := 0, window := 1, renderer := 2,
    events := fun tick => if tick = 0 then [{ type := SDL_QUIT, sym := 0 }] else [] }

/-- The container `init_sdl` fills in when startup succeeds. -/
def sdl_of (env : sdl_env) : sdl_t := { window := env.window, renderer := env.renderer }

/-- The calls `main` makes before entering the loop when startup succeeds. -/
def startup_trace (env : sdl_env) : List sdl_call :=
  [sdl_call.SDL_Init 49 0,
    sdl_call.SDL_CreateWindow window_title SDL_WINDOWPOS_CENTERED SDL_WINDOWPOS_CENTERED 1280 640
      0 env.window,
    sdl_call.SDL_CreateRenderer env.window (-1) SDL_RENDERER_ACCELERATED env.renderer,
    sdl_call.SDL_SetRenderDrawColor env.renderer 255 255 0 255,
    sdl_call.SDL_RenderClear env.renderer]

/-! ## Lemmas on `handle_input` -/

theorem keydown_ne_quit : SDL_KEYDOWN ≠ SDL_QUIT := by decide

theorem keyup_ne_quit : SDL_KEYUP ≠ SDL_QUIT := by decide

theorem keyup_ne_keydown : SDL_KEYUP ≠ SDL_KEYDOWN := by decide

theorem is_plain_key_not_terminal (event : SDL_Event) (h : is_plain_key event) :
    ¬ is_terminal event := by
  unfold is_plain_key at h
  unfold is_terminal
  rcases h with h | ⟨h1, h2⟩
  · rintro (h3 | ⟨h3, _⟩)
    · exact keyup_ne_quit (h.symm.trans h3)
    · exact keyup_ne_keydown (h.symm.trans h3)
  · rintro (h3 | ⟨_, h4⟩)
    · exact keydown_ne_quit (h1.symm.trans h3)
    · exact h2 h4

theorem handle_input_cons_terminal (chip8 : chip8_t) (event : SDL_Event)
    (rest : List SDL_Event) (h : is_terminal event) :
    handle_input chip8 (event :: rest) =
      ({ chip8 with state := emulator_state_t.QUIT }, rest,
        [sdl_call.SDL_PollEvent (some event)]) := by
  unfold is_terminal at h
  rcases h with h | ⟨h1, h2⟩
  · simp [handle_input, h]
  · simp [handle_input, h1, h2, keydown_ne_quit]

theorem handle_input_cons_other (chip8 : chip8_t) (event : SDL_Event)
    (rest : List SDL_Event) (h : ¬ is_terminal event) :
    handle_input chip8 (event :: rest) =
      ((handle_input chip8 rest).1, (handle_input chip8 rest).2.1,
        sdl_call.SDL_PollEvent (some event) :: (handle_input chip8 rest).2.2) := by
  unfold is_terminal at h
  have hq : ¬ event.type = SDL_QUIT := fun hq => h (Or.inl hq)
  by_cases hk : event.type = SDL_KEYDOWN
  · have he : ¬ event.sym = SDLK_ESCAPE := fun he => h (Or.inr ⟨hk, he⟩)
    simp [handle_input, hk, he, keydown_ne_quit]
  · by_cases hu : event.type = SDL_KEYUP
    · simp [handle_input, hu, keyup_ne_quit, keyup_ne_keydown]
    · simp [handle_input, hq, hk, hu]

theorem handle_input_drains (chip8 : chip8_t) (batch : List SDL_Event)
    (h : ∀ event ∈ batch, ¬ is_terminal event) :
    handle_input chip8 batch = (chip8, [], polls batch ++ [sdl_call.SDL_PollEvent none]) := by
  induction batch with
  | nil => simp [handle_input, polls]
  | cons event rest ih =>
    have h1 : ¬ is_terminal event := h event (List.mem_cons_self _ _)
    have h2 : ∀ x ∈ rest, ¬ is_terminal x := fun x hx => h x (List.mem_cons_of_mem _ hx)
    rw [handle_input_cons_other chip8 event rest h1, ih h2]
    simp [polls]

theorem handle_input_stops (chip8 : chip8_t) (pre : List SDL_Event) (event : SDL_Event)
    (post : List SDL_Event) (hpre : ∀ x ∈ pre, ¬ is_terminal x) (h : is_terminal event) :
    handle_input chip8 (pre ++ event :: post) =
      ({ chip8 with state := emulator_state_t.QUIT }, post, polls (pre ++ [event])) := by
  induction pre with
  | nil => simp [handle_input_cons_terminal chip8 event post h, polls]
  | cons x xs ih =>
    have h1 : ¬ is_terminal x := hpre x (List.mem_cons_self _ _)
    have h2 : ∀ y ∈ xs, ¬ is_terminal y := fun y hy => hpre y (List.mem_cons_of_mem _ hy)
    rw [List.cons_append, handle_input_cons_other chip8 x _ h1, ih h2]
    simp [polls]

theorem exists_first_terminal (batch : List SDL_Event) (h : ∃ event ∈ batch, is_terminal event) :
    ∃ pre event post, batch = pre ++ event :: post ∧ (∀ x ∈ pre, ¬ is_terminal x) ∧
      is_terminal event := by
  induction batch with
  | nil => obtain ⟨e, he, _⟩ := h; exact absurd he (List.not_mem_nil _)
  | cons x xs ih =>
    by_cases hx : is_terminal x
    · exact ⟨[], x, xs, rfl, fun y hy => absurd hy (List.not_mem_nil _), hx⟩
    · obtain ⟨e, he, het⟩ := h
      have hxs : ∃ event ∈ xs, is_terminal event := by
        rcases List.mem_cons.mp he with heq | hmem
        · exact absurd (heq ▸ het) hx
        · exact ⟨e, hmem, het⟩
      obtain ⟨pre, ev, post, hb, hpre, hev⟩ := ih hxs
      refine ⟨x :: pre, ev, post, by rw [hb]; rfl, ?_, hev⟩
      intro y hy
      rcases List.mem_cons.mp hy with heq | hmem
      · rw [heq]; exact hx
      · exact hpre y hmem

theorem handle_input_state_cases (chip8 : chip8_t) (batch : List SDL_Event) :
    (handle_input chip8 batch).1.state = chip8.state ∨
      (handle_input chip8 batch).1.state = emulator_state_t.QUIT := by
  by_cases h : ∃ event ∈ batch, is_terminal event
  · obtain ⟨pre, ev, post, hb, hpre, hev⟩ := exists_first_terminal batch h
    right
    rw [hb, handle_input_stops chip8 pre ev post hpre hev]
  · left
    have h2 : ∀ event ∈ batch, ¬ is_terminal event := fun e he het => h ⟨e, he, het⟩
    rw [handle_input_drains chip8 batch h2]

/-! ## Properties of the input poller -/

/-- C1: from a Running machine, one call of `handle_input` on a batch holding
exactly one event leaves the state Terminated (`QUIT`) when that event is a
window-close event, and likewise when it is a key-down event for Escape. -/
theorem handle_input_single_terminal (chip8 : chip8_t) (event : SDL_Event)
    (_hrun : chip8.state = emulator_state_t.RUNNING)
    (hev : event.type = SDL_QUIT ∨ (event.type = SDL_KEYDOWN ∧ event.sym = SDLK_ESCAPE)) :
    (handle_input chip8 [event]).1.state = emulator_state_t.QUIT := by
  rw [handle_input_cons_terminal chip8 event [] hev]

theorem handle_input_single_terminal_witness :
    (handle_input { state := emulator_state_t.RUNNING } [{ type := SDL_QUIT, sym := 0 }]).1.state
        = emulator_state_t.QUIT ∧
      (handle_input { state := emulator_state_t.RUNNING }
        [{ type := SDL_KEYDOWN, sym := SDLK_ESCAPE }]).1.state = emulator_state_t.QUIT :=
  ⟨handle_input_single_terminal { state := emulator_state_t.RUNNING }
      { type := SDL_QUIT, sym := 0 } rfl (Or.inl rfl),
    handle_input_single_terminal { state := emulator_state_t.RUNNING }
      { type := SDL_KEYDOWN, sym := SDLK_ESCAPE } rfl (Or.inr ⟨rfl, rfl⟩)⟩

/-- C2: Terminated is absorbing.  From a machine whose state is `QUIT`,
`handle_input` on any event batch leaves the state `QUIT`, and so does any
number of further `handle_input` calls on any batches: the state is never
`RUNNING` or `PAUSED` again. -/
theorem handle_input_quit_absorbing (chip8 : chip8_t) (queue : List SDL_Event)
    (batch : List SDL_Event) (batches : List (List SDL_Event))
    (hquit : chip8.state = emulator_state_t.QUIT) :
    (handle_input chip8 batch).1.state = emulator_state_t.QUIT ∧
      (handle_input_iter chip8 queue batches).1.state = emulator_state_t.QUIT ∧
      (handle_input_iter chip8 queue batches).1.state ≠ emulator_state_t.RUNNING ∧
      (handle_input_iter chip8 queue batches).1.state ≠ emulator_state_t.PAUSED := by
  have one : ∀ (c : chip8_t) (b : List SDL_Event), c.state = emulator_state_t.QUIT →
      (handle_input c b).1.state = emulator_state_t.QUIT := by
    intro c b hc
    rcases handle_input_state_cases c b with h | h
    · rw [h, hc]
    · exact h
  have many : (handle_input_iter chip8 queue batches).1.state = emulator_state_t.QUIT := by
    induction batches generalizing chip8 queue with
    | nil => simpa [handle_input_iter] using hquit
    | cons b later ih =>
      simp only [handle_input_iter]
      exact ih _ _ (one chip8 (queue ++ b) hquit)
  refine ⟨one chip8 batch hquit, many, ?_, ?_⟩
  · rw [many]; decide
  · rw [many]; decide

theorem handle_input_quit_absorbing_witness :
    (handle_input { state := emulator_state_t.QUIT }
        [{ type := SDL_KEYDOWN, sym := 97 }, { type := SDL_KEYUP, sym := 97 }]).1.state
        = emulator_state_t.QUIT ∧
      (handle_input_iter { state := emulator_state_t.QUIT } []
        [[{ type := SDL_KEYDOWN, sym := 97 }], [], [{ type := SDL_QUIT, sym := 0 }]]).1.state
        = emulator_state_t.QUIT :=
  ⟨(handle_input_quit_absorbing { state := emulator_state_t.QUIT } []
      [{ type := SDL_KEYDOWN, sym := 97 }, { type := SDL_KEYUP, sym := 97 }]
      [[{ type := SDL_KEYDOWN, sym := 97 }], [], [{ type := SDL_QUIT, sym := 0 }]] rfl).1,
    (handle_input_quit_absorbing { state := emulator_state_t.QUIT } []
      [{ type := SDL_KEYDOWN, sym := 97 }, { type := SDL_KEYUP, sym := 97 }]
      [[{ type := SDL_KEYDOWN, sym := 97 }], [], [{ type := SDL_QUIT, sym := 0 }]] rfl).2.1⟩

/-- C3: for every starting state and every event batch that contains only
key-up events and key-down events for keys other than Escape, `handle_input`
leaves the run state (indeed the whole machine) as it was, having drained the
whole batch. -/
theorem handle_input_plain_keys_unchanged (chip8 : chip8_t) (batch : List SDL_Event)
    (h : ∀ event ∈ batch, is_plain_key event) :
    (handle_input chip8 batch).1.state = chip8.state ∧
      handle_input chip8 batch = (chip8, [], polls batch ++ [sdl_call.SDL_PollEvent none]) := by
  have h2 : ∀ event ∈ batch, ¬ is_terminal event :=
    fun e he => is_plain_key_not_terminal e (h e he)
  rw [handle_input_drains chip8 batch h2]
  exact ⟨rfl, rfl⟩

theorem handle_input_plain_keys_unchanged_witness :
    (handle_input { state := emulator_state_t.PAUSED }
        [{ type := SDL_KEYUP, sym := SDLK_ESCAPE }, { type := SDL_KEYDOWN, sym := 97 }]).1.state
      = emulator_state_t.PAUSED :=
  (handle_input_plain_keys_unchanged { state := emulator_state_t.PAUSED }
    [{ type := SDL_KEYUP, sym := SDLK_ESCAPE }, { type := SDL_KEYDOWN, sym := 97 }]
    (by decide)).1

/-- C7: for every starting state and every event batch that contains a
window-close or Escape key-down event, `handle_input` sets the state to
`QUIT` and stops at the first such event: the batch splits as
`pre ++ event :: post` with no terminal event in `pre`, exactly the events of
`pre` and `event` are polled, `post` stays queued, and the resulting machine
is the same whatever events replace `post`. -/
theorem handle_input_first_terminal_wins (chip8 : chip8_t) (batch : List SDL_Event)
    (h : ∃ event ∈ batch, is_terminal event) :
    ∃ pre event post, batch = pre ++ event :: post ∧ (∀ x ∈ pre, ¬ is_terminal x) ∧
      is_terminal event ∧
      (handle_input chip8 batch).1.state = emulator_state_t.QUIT ∧
      (handle_input chip8 batch).2.1 = post ∧
      (handle_input chip8 batch).2.2 = polls (pre ++ [event]) ∧
      ∀ later : List SDL_Event,
        (handle_input chip8 (pre ++ event :: later)).1 = (handle_input chip8 batch).1 ∧
        (handle_input chip8 (pre ++ event :: later)).2.1 = later ∧
        (handle_input chip8 (pre ++ event :: later)).2.2 = polls (pre ++ [event]) := by
  obtain ⟨pre, ev, post, hb, hpre, hev⟩ := exists_first_terminal batch h
  refine ⟨pre, ev, post, hb, hpre, hev, ?_, ?_, ?_, ?_⟩
  · rw [hb, handle_input_stops chip8 pre ev post hpre hev]
  · rw [hb, handle_input_stops chip8 pre ev post hpre hev]
  · rw [hb, handle_input_stops chip8 pre ev post hpre hev]
  · intro later
    rw [hb, handle_input_stops chip8 pre ev post hpre hev,
      handle_input_stops chip8 pre ev later hpre hev]
    exact ⟨rfl, rfl, rfl⟩

theorem handle_input_first_terminal_wins_witness :
    ∃ pre event post,
      ([{ type := SDL_KEYUP, sym := 97 }, { type := SDL_QUIT, sym := 0 },
          { type := SDL_KEYDOWN, sym := 98 }] : List SDL_Event) = pre ++ event :: post ∧
      (∀ x ∈ pre, ¬ is_terminal x) ∧ is_terminal event ∧
      (handle_input { state := emulator_state_t.PAUSED }
        [{ type := SDL_KEYUP, sym := 97 }, { type := SDL_QUIT, sym := 0 },
          { type := SDL_KEYDOWN, sym := 98 }]).1.state = emulator_state_t.QUIT := by
  obtain ⟨pre, ev, post, h1, h2, h3, h4, _⟩ :=
    handle_input_first_terminal_wins { state := emulator_state_t.PAUSED }
      [{ type := SDL_KEYUP, sym := 97 }, { type := SDL_QUIT, sym := 0 },
        { type := SDL_KEYDOWN, sym := 98 }]
      ⟨{ type := SDL_QUIT, sym := 0 }, by simp, Or.inl rfl⟩
  exact ⟨pre, ev, post, h1, h2, h3, h4⟩

/-! ## Configuration, window geometry and colour decoding -/

theorem args_loop_eq (config : config_t) (args : List String) : args_loop config args = config := by
  induction args with
  | nil => rfl
  | cons _ rest ih => simpa [args_loop] using ih

theorem set_config_from_args_eq (config : config_t) (argc : Int) (argv : List String) :
    set_config_from_args config argc argv = (true, default_config) := by
  simp [set_config_from_args, args_loop_eq, default_config]

theorem uint32_to_int_of_lt (n : Nat) (h : n < 2 ^ 31) :
    uint32_to_int (uint32_mul n 1) = (n : Int) := by
  have h1 : n % 2 ^ 32 = n := Nat.mod_eq_of_lt (by omega)
  simp only [uint32_to_int, uint32_mul, Nat.mul_one, Nat.mod_mod, h1]
  rw [if_pos h]

theorem uint32_to_int_mul (a b : Nat) (h : a * b < 2 ^ 31) :
    uint32_to_int (uint32_mul a b) = ((a * b : Nat) : Int) := by
  have h0 := uint32_to_int_of_lt (a * b) h
  simpa [uint32_mul] using h0

/-- C8: for every 32-bit `bg_color`, the channels `clear_screen` passes to the
renderer are `r` = bits 31-24, `g` = bits 23-16, `b` = bits 15-8 and `a` =
bits 7-0 of `bg_color`, each in `0..255`, and they recompose to `bg_color`;
in particular `0xFFFF00FF` decodes to `(255, 255, 0, 255)`. -/
theorem clear_screen_decodes_rgba (sdl : sdl_t) (config : config_t)
    (h : config.bg_color < 2 ^ 32) :
    ∃ r g b a : Nat,
      clear_screen sdl config =
        [sdl_call.SDL_SetRenderDrawColor sdl.renderer r g b a,
          sdl_call.SDL_RenderClear sdl.renderer] ∧
      r < 256 ∧ g < 256 ∧ b < 256 ∧ a < 256 ∧
      r * 2 ^ 24 + g * 2 ^ 16 + b * 2 ^ 8 + a = config.bg_color ∧
      (∀ i, i < 8 → r.testBit i = config.bg_color.testBit (24 + i)) ∧
      (∀ i, i < 8 → g.testBit i = config.bg_color.testBit (16 + i)) ∧
      (∀ i, i < 8 → b.testBit i = config.bg_color.testBit (8 + i)) ∧
      (∀ i, i < 8 → a.testBit i = config.bg_color.testBit i) ∧
      (config.bg_color = 0xFFFF00FF → r = 255 ∧ g = 255 ∧ b = 0 ∧ a = 255) := by
  have hff : (0xFF : Nat) = 2 ^ 8 - 1 := by norm_num
  have key : ∀ k : Nat, to_uint8 ((config.bg_color >>> k) &&& 0xFF) =
      config.bg_color / 2 ^ k % 2 ^ 8 := by
    intro k
    unfold to_uint8
    rw [hff, Nat.and_pow_two_sub_one_eq_mod, Nat.shiftRight_eq_div_pow, Nat.mod_mod]
  have bit : ∀ k i : Nat, i < 8 →
      (config.bg_color / 2 ^ k % 2 ^ 8).testBit i = config.bg_color.testBit (k + i) := by
    intro k i hi
    rw [Nat.testBit_mod_two_pow, ← Nat.shiftRight_eq_div_pow, Nat.testBit_shiftRight]
    simp [hi]
  refine ⟨config.bg_color / 2 ^ 24 % 2 ^ 8, config.bg_color / 2 ^ 16 % 2 ^ 8,
    config.bg_color / 2 ^ 8 % 2 ^ 8, config.bg_color / 2 ^ 0 % 2 ^ 8, ?_, ?_, ?_, ?_, ?_, ?_,
    bit 24, bit 16, bit 8, ?_, ?_⟩
  · simp only [clear_screen, key]
  · omega
  · omega
  · omega
  · omega
  · omega
  · intro i hi
    have := bit 0 i hi
    simpa using this
  · intro hc
    rw [hc]
    norm_num

theorem clear_screen_decodes_rgba_witness :
    ∃ r g b a : Nat,
      clear_screen { window := 1, renderer := 2 }
          { window_height := 32, window_width := 64, fg_color := 0xFFFFFFFF,
            bg_color := 0xFFFF00FF, scale_factor := 20 } =
        [sdl_call.SDL_SetRenderDrawColor 2 r g b a, sdl_call.SDL_RenderClear 2] ∧
      r = 255 ∧ g = 255 ∧ b = 0 ∧ a = 255 := by
  obtain ⟨r, g, b, a, h1, _, _, _, _, _, _, _, _, _, h2⟩ :=
    clear_screen_decodes_rgba { window := 1, renderer := 2 }
      { window_height := 32, window_width := 64, fg_color := 0xFFFFFFFF,
        bg_color := 0xFFFF00FF, scale_factor := 20 } (by norm_num)
  exact ⟨r, g, b, a, h1, h2 rfl⟩

/-- C9, as stated, fails: `config_wide` is a valid configuration (all fields
32-bit values, `scale_factor ≥ 1`), but the width `init_sdl` passes to window
creation is `0`, not `window_width * scale_factor = 4294967296`. -/
theorem window_size_wraps_at_config_wide :
    config_wide.valid ∧
      window_requests (init_sdl sdl_zero config_wide env_quiet).2.2 = [(0, 2097152)] ∧
      window_requests (init_sdl sdl_zero config_wide env_quiet).2.2 ≠
        [(((config_wide.window_width * config_wide.scale_factor : Nat) : Int),
          ((config_wide.window_height * config_wide.scale_factor : Nat) : Int))] := by
  refine ⟨?_, ?_, ?_⟩
  · simp [config_t.valid, config_t.fits, config_wide]
  · simp [init_sdl, env_quiet, config_wide, window_requests, uint32_to_int, uint32_mul]
  · simp [init_sdl, env_quiet, config_wide, window_requests, uint32_to_int, uint32_mul]

/-- C9, amended: for every valid configuration whose products
`window_width * scale_factor` and `window_height * scale_factor` are below
`2 ^ 31`, the one window `init_sdl` creates (after a successful `SDL_Init`) is
requested with exactly these two products as width and height; for the
defaults produced by `set_config_from_args` the size is `(1280, 640)`. -/
theorem init_sdl_window_size (sdl : sdl_t) (config : config_t) (env : sdl_env)
    (_hvalid : config.valid) (henv : env.init_status = 0)
    (hw : config.window_width * config.scale_factor < 2 ^ 31)
    (hh : config.window_height * config.scale_factor < 2 ^ 31) :
    window_requests (init_sdl sdl config env).2.2 =
        [(((config.window_width * config.scale_factor : Nat) : Int),
          ((config.window_height * config.scale_factor : Nat) : Int))] ∧
      ∀ (config0 : config_t) (argc : Int) (argv : List String),
        window_requests (init_sdl sdl (set_config_from_args config0 argc argv).2 env).2.2 =
          [(1280, 640)] := by
  have main : ∀ c : config_t, c.window_width * c.scale_factor < 2 ^ 31 →
      c.window_height * c.scale_factor < 2 ^ 31 →
      window_requests (init_sdl sdl c env).2.2 =
        [(((c.window_width * c.scale_factor : Nat) : Int),
          ((c.window_height * c.scale_factor : Nat) : Int))] := by
    intro c h1 h2
    unfold init_sdl
    simp only [henv, ne_eq, not_true_eq_false, if_false, uint32_to_int_mul _ _ h1,
      uint32_to_int_mul _ _ h2]
    split
    · simp [window_requests]
    · split <;> simp [window_requests]
  refine ⟨main config hw hh, ?_⟩
  intro config0 argc argv
  rw [set_config_from_args_eq]
  have := main default_config (by norm_num [default_config]) (by norm_num [default_config])
  simpa [default_config] using this

theorem init_sdl_window_size_witness :
    window_requests (init_sdl sdl_zero
        { window_height := 32, window_width := 64, fg_color := 0xFFFFFFFF,
          bg_color := 0xFFFF00FF, scale_factor := 20 } env_quiet).2.2 =
      [(((64 * 20 : Nat) : Int), ((32 * 20 : Nat) : Int))] :=
  (init_sdl_window_size sdl_zero
    { window_height := 32, window_width := 64, fg_color := 0xFFFFFFFF,
      bg_color := 0xFFFF00FF, scale_factor := 20 } env_quiet
    (by simp [config_t.valid, config_t.fits]) rfl (by norm_num) (by norm_num)).1

/-- C10: for every prior content of the machine context, `init_chip8` reports
success and leaves the run state `RUNNING`, never `PAUSED` or `QUIT`; this
covers the zero-initialised context `main` passes in, whose state tag `0` is
`QUIT`. -/
theorem init_chip8_running (chip8 : chip8_t) :
    (init_chip8 chip8).1 = true ∧
      (init_chip8 chip8).2.state = emulator_state_t.RUNNING ∧
      (init_chip8 chip8).2.state ≠ emulator_state_t.PAUSED ∧
      (init_chip8 chip8).2.state ≠ emulator_state_t.QUIT ∧
      chip8_zero.state.tag = 0 ∧ chip8_zero.state = emulator_state_t.QUIT ∧
      (init_chip8 chip8_zero).2.state = emulator_state_t.RUNNING := by
  refine ⟨rfl, rfl, ?_, ?_, rfl, rfl, rfl⟩
  · simp [init_chip8]
  · simp [init_chip8]

/-! ## Resources, the main loop and `main` -/

/-! ### Lemmas on traces -/

theorem acquired_append (xs ys : List sdl_call) :
    acquired (xs ++ ys) = acquired xs ++ acquired ys := by
  induction xs with
  | nil => rfl
  | cons x rest ih =>
    cases x <;> simp only [List.cons_append, acquired] <;> (try split) <;> simp [ih]

theorem released_append (xs ys : List sdl_call) :
    released (xs ++ ys) = released xs ++ released ys := by
  induction xs with
  | nil => rfl
  | cons x rest ih => cases x <;> simp [released, ih]

theorem acquired_polls (events : List SDL_Event) : acquired (polls events) = [] := by
  induction events with
  | nil => rfl
  | cons e rest ih => simpa [polls, acquired] using ih

theorem released_polls (events : List SDL_Event) : released (polls events) = [] := by
  induction events with
  | nil => rfl
  | cons e rest ih => simpa [polls, released] using ih

theorem handle_input_trace (chip8 : chip8_t) (batch : List SDL_Event) :
    acquired (handle_input chip8 batch).2.2 = [] ∧ released (handle_input chip8 batch).2.2 = [] := by
  by_cases h : ∃ event ∈ batch, is_terminal event
  · obtain ⟨pre, ev, post, hb, hpre, hev⟩ := exists_first_terminal batch h
    rw [hb, handle_input_stops chip8 pre ev post hpre hev]
    exact ⟨acquired_polls _, released_polls _⟩
  · have h2 : ∀ event ∈ batch, ¬ is_terminal event := fun e he het => h ⟨e, he, het⟩
    rw [handle_input_drains chip8 batch h2]
    simp [acquired_append, released_append, acquired_polls, released_polls, acquired, released]

theorem loop_body_trace (sdl : sdl_t) (env : sdl_env) (chip8 : chip8_t)
    (queue : List SDL_Event) (tick : Nat) :
    acquired (loop_body sdl env chip8 queue tick).2.2 = [] ∧
      released (loop_body sdl env chip8 queue tick).2.2 = [] := by
  have h := handle_input_trace chip8 (queue ++ env.events tick)
  simp [loop_body, update_screen, acquired_append, released_append, h.1, h.2, acquired, released]

/-! ### Unfolding the main loop -/

theorem main_loop_quit (sdl : sdl_t) (env : sdl_env) (fuel : Nat) (chip8 : chip8_t)
    (queue : List SDL_Event) (tick : Nat) (h : chip8.state = emulator_state_t.QUIT) :
    main_loop sdl env fuel chip8 queue tick = some (chip8, []) := by
  cases fuel <;> simp [main_loop, h]

theorem main_loop_zero (sdl : sdl_t) (env : sdl_env) (chip8 : chip8_t)
    (queue : List SDL_Event) (tick : Nat) (h : chip8.state ≠ emulator_state_t.QUIT) :
    main_loop sdl env 0 chip8 queue tick = none := by
  simp [main_loop, h]

theorem main_loop_succ (sdl : sdl_t) (env : sdl_env) (fuel : Nat) (chip8 : chip8_t)
    (queue : List SDL_Event) (tick : Nat) (h : chip8.state ≠ emulator_state_t.QUIT) :
    main_loop sdl env (fuel + 1) chip8 queue tick =
      (main_loop sdl env fuel (loop_body sdl env chip8 queue tick).1
        (loop_body sdl env chip8 queue tick).2.1 (tick + 1)).map
        (fun p => (p.1, (loop_body sdl env chip8 queue tick).2.2 ++ p.2)) := by
  rw [main_loop]
  simp only [h, if_false]
  cases main_loop sdl env fuel (loop_body sdl env chip8 queue tick).1
    (loop_body sdl env chip8 queue tick).2.1 (tick + 1) <;> rfl

theorem main_loop_trace (sdl : sdl_t) (env : sdl_env) (fuel : Nat) :
    ∀ (chip8 : chip8_t) (queue : List SDL_Event) (tick : Nat) (final : chip8_t)
      (trace : List sdl_call),
      main_loop sdl env fuel chip8 queue tick = some (final, trace) →
        acquired trace = [] ∧ released trace = [] := by
  induction fuel with
  | zero =>
    intro chip8 queue tick final trace h
    by_cases hq : chip8.state = emulator_state_t.QUIT
    · rw [main_loop_quit sdl env 0 chip8 queue tick hq] at h
      simp only [Option.some.injEq, Prod.mk.injEq] at h
      rw [← h.2]; exact ⟨rfl, rfl⟩
    · rw [main_loop_zero sdl env chip8 queue tick hq] at h
      exact absurd h (by simp)
  | succ fuel ih =>
    intro chip8 queue tick final trace h
    by_cases hq : chip8.state = emulator_state_t.QUIT
    · rw [main_loop_quit sdl env (fuel + 1) chip8 queue tick hq] at h
      simp only [Option.some.injEq, Prod.mk.injEq] at h
      rw [← h.2]; exact ⟨rfl, rfl⟩
    · rw [main_loop_succ sdl env fuel chip8 queue tick hq] at h
      cases hrec : main_loop sdl env fuel (loop_body sdl env chip8 queue tick).1
        (loop_body sdl env chip8 queue tick).2.1 (tick + 1) with
      | none => rw [hrec] at h; exact absurd h (by simp)
      | some p =>
        rw [hrec] at h
        simp only [Option.map_some', Option.some.injEq, Prod.mk.injEq] at h
        have hp := ih _ _ _ p.1 p.2 hrec
        have hb := loop_body_trace sdl env chip8 queue tick
        rw [← h.2, acquired_append, released_append, hp.1, hp.2, hb.1, hb.2]
        exact ⟨rfl, rfl⟩

theorem loop_body_terminal (sdl : sdl_t) (env : sdl_env) (chip8 : chip8_t)
    (queue : List SDL_Event) (tick : Nat) (h : ∃ event ∈ env.events tick, is_terminal event) :
    (loop_body sdl env chip8 queue tick).1.state = emulator_state_t.QUIT := by
  obtain ⟨e, he, het⟩ := h
  have h2 : ∃ event ∈ queue ++ env.events tick, is_terminal event :=
    ⟨e, List.mem_append.mpr (Or.inr he), het⟩
  obtain ⟨pre, ev, post, hb, hpre, hev⟩ := exists_first_terminal _ h2
  simp only [loop_body]
  rw [hb, handle_input_stops chip8 pre ev post hpre hev]

theorem main_loop_terminates (sdl : sdl_t) (env : sdl_env) (k : Nat) :
    ∀ (tick : Nat) (chip8 : chip8_t) (queue : List SDL_Event) (fuel : Nat),
      (∃ event ∈ env.events (tick + k), is_terminal event) → k < fuel →
        (main_loop sdl env fuel chip8 queue tick).isSome = true := by
  induction k with
  | zero =>
    intro tick chip8 queue fuel h hf
    by_cases hq : chip8.state = emulator_state_t.QUIT
    · rw [main_loop_quit sdl env fuel chip8 queue tick hq]; rfl
    · obtain ⟨f, rfl⟩ : ∃ f, fuel = f + 1 := ⟨fuel - 1, by omega⟩
      rw [main_loop_succ sdl env f chip8 queue tick hq,
        main_loop_quit sdl env f _ _ _ (loop_body_terminal sdl env chip8 queue tick h)]
      rfl
  | succ k ih =>
    intro tick chip8 queue fuel h hf
    by_cases hq : chip8.state = emulator_state_t.QUIT
    · rw [main_loop_quit sdl env fuel chip8 queue tick hq]; rfl
    · obtain ⟨f, rfl⟩ : ∃ f, fuel = f + 1 := ⟨fuel - 1, by omega⟩
      rw [main_loop_succ sdl env f chip8 queue tick hq]
      have h2 : ∃ event ∈ env.events (tick + 1 + k), is_terminal event := by
        have e : tick + 1 + k = tick + (k + 1) := by omega
        rw [e]; exact h
      have := ih (tick + 1) (loop_body sdl env chip8 queue tick).1
        (loop_body sdl env chip8 queue tick).2.1 f h2 (by omega)
      simpa using this

/-! ### Unfolding `main` -/

theorem init_sdl_of_startup_ok (env : sdl_env) (h : startup_ok env) :
    init_sdl sdl_zero default_config env =
      (true, sdl_of env, [sdl_call.SDL_Init 49 0,
        sdl_call.SDL_CreateWindow window_title SDL_WINDOWPOS_CENTERED SDL_WINDOWPOS_CENTERED
          1280 640 0 env.window,
        sdl_call.SDL_CreateRenderer env.window (-1) SDL_RENDERER_ACCELERATED env.renderer]) := by
  obtain ⟨h1, h2, h3⟩ := h
  simp [init_sdl, h1, h2, h3, sdl_of, sdl_zero, uint32_to_int, uint32_mul, SDL_INIT_VIDEO,
    SDL_INIT_AUDIO, SDL_INIT_TIMER, default_config]

theorem init_sdl_of_startup_failed (sdl : sdl_t) (config : config_t) (env : sdl_env)
    (h : ¬ startup_ok env) :
    (init_sdl sdl config env).1 = false ∧ released (init_sdl sdl config env).2.2 = [] ∧
      (acquired (init_sdl sdl config env).2.2 = [] ∨
        acquired (init_sdl sdl config env).2.2 = [resource.subsystem] ∨
        acquired (init_sdl sdl config env).2.2 =
          [resource.subsystem, resource.window env.window]) := by
  by_cases h1 : env.init_status = 0
  · by_cases h2 : env.window = 0
    · simp [init_sdl, h1, h2, released, acquired]
    · by_cases h3 : env.renderer = 0
      · simp [init_sdl, h1, h2, h3, released, acquired]
      · exact absurd ⟨h1, h2, h3⟩ h
  · simp [init_sdl, h1, released, acquired]

theorem clear_screen_default (sdl : sdl_t) :
    clear_screen sdl default_config =
      [sdl_call.SDL_SetRenderDrawColor sdl.renderer 255 255 0 255,
        sdl_call.SDL_RenderClear sdl.renderer] := rfl

theorem main_of_startup_ok (argc : Int) (argv : List String) (env : sdl_env) (fuel : Nat)
    (h : startup_ok env) :
    main argc argv env fuel =
      (main_loop (sdl_of env) env fuel { state := emulator_state_t.RUNNING } [] 0).map
        (fun p => (EXIT_SUCCESS, startup_trace env ++ p.2 ++ final_cleanup (sdl_of env))) := by
  unfold main
  rw [set_config_from_args_eq]
  simp only [init_sdl_of_startup_ok env h, init_chip8, chip8_zero]
  cases main_loop (sdl_of env) env fuel { state := emulator_state_t.RUNNING } [] 0 <;>
    simp [clear_screen_default, startup_trace, sdl_of]

theorem main_of_startup_failed (argc : Int) (argv : List String) (env : sdl_env) (fuel : Nat)
    (h : ¬ startup_ok env) :
    main argc argv env fuel = some (EXIT_FAILURE, (init_sdl sdl_zero default_config env).2.2) := by
  unfold main
  rw [set_config_from_args_eq]
  simp [(init_sdl_of_startup_failed sdl_zero default_config env h).1]

theorem delays_append (xs ys : List sdl_call) : delays (xs ++ ys) = delays xs ++ delays ys := by
  induction xs with
  | nil => rfl
  | cons x rest ih => cases x <;> simp [delays, ih]

theorem presents_append (xs ys : List sdl_call) :
    presents (xs ++ ys) = presents xs ++ presents ys := by
  induction xs with
  | nil => rfl
  | cons x rest ih => cases x <;> simp [presents, ih]

theorem delays_polls (events : List SDL_Event) : delays (polls events) = [] := by
  induction events with
  | nil => rfl
  | cons e rest ih => simpa [polls, delays] using ih

theorem presents_polls (events : List SDL_Event) : presents (polls events) = [] := by
  induction events with
  | nil => rfl
  | cons e rest ih => simpa [polls, presents] using ih

theorem handle_input_no_pacing (chip8 : chip8_t) (batch : List SDL_Event) :
    delays (handle_input chip8 batch).2.2 = [] ∧ presents (handle_input chip8 batch).2.2 = [] := by
  by_cases h : ∃ event ∈ batch, is_terminal event
  · obtain ⟨pre, ev, post, hb, hpre, hev⟩ := exists_first_terminal batch h
    rw [hb, handle_input_stops chip8 pre ev post hpre hev]
    exact ⟨delays_polls _, presents_polls _⟩
  · have h2 : ∀ event ∈ batch, ¬ is_terminal event := fun e he het => h ⟨e, he, het⟩
    rw [handle_input_drains chip8 batch h2]
    simp [delays_append, presents_append, delays_polls, presents_polls, delays, presents]

/-! ## Properties of the main loop and of `main` -/

/-- C4, as stated, fails: in the tick whose poll delivers a window-close event
and sets the state to `QUIT`, the loop body still calls `SDL_Delay(16)` and
`SDL_RenderPresent` after the poll. -/
theorem loop_body_quit_tick_still_paces :
    (handle_input { state := emulator_state_t.RUNNING } ([] ++ env_close.events 0)).1.state
        = emulator_state_t.QUIT ∧
      (loop_body { window := 1, renderer := 2 } env_close { state := emulator_state_t.RUNNING }
        [] 0).2.2 =
        [sdl_call.SDL_PollEvent (some { type := SDL_QUIT, sym := 0 }), sdl_call.SDL_Delay 16,
          sdl_call.SDL_RenderPresent 2] ∧
      delays (loop_body { window := 1, renderer := 2 } env_close
        { state := emulator_state_t.RUNNING } [] 0).2.2 ≠ [] ∧
      presents (loop_body { window := 1, renderer := 2 } env_close
        { state := emulator_state_t.RUNNING } [] 0).2.2 ≠ [] := by
  refine ⟨by decide, by decide, by decide, by decide⟩

/-- C4, amended: in every main-loop tick in which `handle_input` sets the run
state to `QUIT`, the tick still performs, after the poll, exactly one
`SDL_Delay(16)` followed by one `update_screen`; the loop then stops at its
next continuation check, so the loop entered at that tick returns (for any
positive iteration bound) having executed exactly that one tick. -/
theorem main_loop_quit_tick (sdl : sdl_t) (env : sdl_env) (chip8 : chip8_t)
    (queue : List SDL_Event) (tick fuel : Nat)
    (hrun : chip8.state ≠ emulator_state_t.QUIT)
    (hquit : (handle_input chip8 (queue ++ env.events tick)).1.state = emulator_state_t.QUIT) :
    (loop_body sdl env chip8 queue tick).2.2 =
        (handle_input chip8 (queue ++ env.events tick)).2.2 ++
          [sdl_call.SDL_Delay 16, sdl_call.SDL_RenderPresent sdl.renderer] ∧
      delays (loop_body sdl env chip8 queue tick).2.2 = [16] ∧
      presents (loop_body sdl env chip8 queue tick).2.2 = [sdl.renderer] ∧
      main_loop sdl env (fuel + 1) chip8 queue tick =
        some ((loop_body sdl env chip8 queue tick).1, (loop_body sdl env chip8 queue tick).2.2) := by
  have hp := handle_input_no_pacing chip8 (queue ++ env.events tick)
  have hb : (loop_body sdl env chip8 queue tick).1.state = emulator_state_t.QUIT := by
    simpa [loop_body] using hquit
  refine ⟨?_, ?_, ?_, ?_⟩
  · simp [loop_body, update_screen]
  · simp [loop_body, update_screen, delays_append, hp.1, delays]
  · simp [loop_body, update_screen, presents_append, hp.2, presents]
  · rw [main_loop_succ sdl env fuel chip8 queue tick hrun, main_loop_quit sdl env fuel _ _ _ hb]
    simp

theorem main_loop_quit_tick_witness :
    delays (loop_body { window := 1, renderer := 2 } env_close
        { state := emulator_state_t.RUNNING } [] 0).2.2 = [16] ∧
      main_loop { window := 1, renderer := 2 } env_close (0 + 1)
          { state := emulator_state_t.RUNNING } [] 0 =
        some ((loop_body { window := 1, renderer := 2 } env_close
            { state := emulator_state_t.RUNNING } [] 0).1,
          (loop_body { window := 1, renderer := 2 } env_close
            { state := emulator_state_t.RUNNING } [] 0).2.2) :=
  ⟨(main_loop_quit_tick { window := 1, renderer := 2 } env_close
      { state := emulator_state_t.RUNNING } [] 0 0 (by decide) (by decide)).2.1,
    (main_loop_quit_tick { window := 1, renderer := 2 } env_close
      { state := emulator_state_t.RUNNING } [] 0 0 (by decide) (by decide)).2.2.2⟩

/-- C5, as stated, fails: when window creation fails, `main` exits with the
failure status having acquired the SDL subsystem and released nothing; when
renderer creation fails, it exits having acquired the subsystem and the
window and released nothing. -/
theorem main_failure_paths_release_nothing :
    (main 1 ["chip8"] env_no_window 0).map (fun p => (p.1, acquired p.2, released p.2)) =
        some (EXIT_FAILURE, [resource.subsystem], []) ∧
      (main 1 ["chip8"] env_no_renderer 0).map (fun p => (p.1, acquired p.2, released p.2)) =
        some (EXIT_FAILURE, [resource.subsystem, resource.window 1], []) ∧
      ¬ (∀ (argc : Int) (argv : List String) (env : sdl_env) (fuel : Nat) (code : Int)
          (trace : List sdl_call), main argc argv env fuel = some (code, trace) →
            released trace = (acquired trace).reverse) := by
  refine ⟨by decide, by decide, ?_⟩
  intro hall
  have h := hall 1 ["chip8"] env_no_window 0 EXIT_FAILURE _ rfl
  exact absurd h (by decide)

/-- C5, amended: on the normal quit path (startup succeeded and the loop has
ended) `main` exits with the success status and releases each acquired
resource exactly once, in reverse order of acquisition (renderer, window,
subsystem), and that path is taken whenever a window-close or Escape event
arrives at some tick; on a startup failure (`SDL_Init`, window creation or
renderer creation) `main` exits with the failure status and releases nothing.
Machine initialisation cannot fail, so no exit follows it. -/
theorem main_release_discipline (argc : Int) (argv : List String) (env : sdl_env) (fuel : Nat) :
    (startup_ok env → ∀ (code : Int) (trace : List sdl_call),
        main argc argv env fuel = some (code, trace) →
          code = EXIT_SUCCESS ∧
          acquired trace = [resource.subsystem, resource.window env.window,
            resource.renderer env.renderer] ∧
          released trace = [resource.renderer env.renderer, resource.window env.window,
            resource.subsystem] ∧
          released trace = (acquired trace).reverse) ∧
      (startup_ok env → ∀ k : Nat, (∃ event ∈ env.events k, is_terminal event) → k < fuel →
        (main argc argv env fuel).isSome = true) ∧
      (¬ startup_ok env → ∃ trace : List sdl_call,
        main argc argv env fuel = some (EXIT_FAILURE, trace) ∧ released trace = [] ∧
          (acquired trace = [] ∨ acquired trace = [resource.subsystem] ∨
            acquired trace = [resource.subsystem, resource.window env.window])) ∧
      (∀ chip8 : chip8_t, (init_chip8 chip8).1 = true) := by
  refine ⟨?_, ?_, ?_, fun _ => rfl⟩
  · intro hok code trace hmain
    rw [main_of_startup_ok argc argv env fuel hok] at hmain
    cases hloop : main_loop (sdl_of env) env fuel { state := emulator_state_t.RUNNING } [] 0 with
    | none => rw [hloop] at hmain; exact absurd hmain (by simp)
    | some p =>
      rw [hloop] at hmain
      simp only [Option.map_some', Option.some.injEq, Prod.mk.injEq] at hmain
      have hp := main_loop_trace (sdl_of env) env fuel _ _ _ p.1 p.2 hloop
      obtain ⟨_, h2, h3⟩ := hok
      have ha : acquired trace = [resource.subsystem, resource.window env.window,
          resource.renderer env.renderer] := by
        rw [← hmain.2, acquired_append, acquired_append, hp.1]
        simp [startup_trace, final_cleanup, acquired, h2, h3]
      have hr : released trace = [resource.renderer env.renderer, resource.window env.window,
          resource.subsystem] := by
        rw [← hmain.2, released_append, released_append, hp.2]
        simp [startup_trace, final_cleanup, released, sdl_of]
      refine ⟨hmain.1.symm, ha, hr, ?_⟩
      rw [ha, hr]; rfl
  · intro hok k hk hf
    rw [main_of_startup_ok argc argv env fuel hok]
    have := main_loop_terminates (sdl_of env) env k 0 { state := emulator_state_t.RUNNING } []
      fuel (by simpa using hk) hf
    simpa using this
  · intro hbad
    have h := init_sdl_of_startup_failed sdl_zero default_config env hbad
    exact ⟨_, main_of_startup_failed argc argv env fuel hbad, h.2.1, h.2.2⟩

theorem main_release_discipline_witness :
    (main 1 ["chip8"] env_close 1).isSome = true ∧
      (∀ (code : Int) (trace : List sdl_call),
        main 1 ["chip8"] env_close 1 = some (code, trace) →
          code = EXIT_SUCCESS ∧
          released trace = [resource.renderer 2, resource.window 1, resource.subsystem]) ∧
      (∃ trace : List sdl_call,
        main 1 ["chip8"] env_no_renderer 1 = some (EXIT_FAILURE, trace) ∧ released trace = []) := by
  refine ⟨?_, ?_, ?_⟩
  · exact (main_release_discipline 1 ["chip8"] env_close 1).2.1 (by decide) 0
      ⟨{ type := SDL_QUIT, sym := 0 }, by decide, by decide⟩ (by decide)
  · intro code trace h
    have := (main_release_discipline 1 ["chip8"] env_close 1).1 (by decide) code trace h
    exact ⟨this.1, this.2.2.1⟩
  · obtain ⟨trace, h1, h2, _⟩ :=
      (main_release_discipline 1 ["chip8"] env_no_renderer 1).2.2.1 (by decide)
    exact ⟨trace, h1, h2⟩

/-- C6: with the default configuration, a successful startup and a single
window-close event pending, `main` (for any positive iteration bound)
returns: its loop performs one pace-and-present cycle (`SDL_Delay(16)` then
`SDL_RenderPresent`), hence at most one, then `final_cleanup` runs once,
releasing the renderer, then the window, then the SDL subsystem, and the
exit status is the success code. -/
theorem main_single_close_event (argc : Int) (argv : List String) (env : sdl_env) (fuel : Nat)
    (event : SDL_Event) (hok : startup_ok env) (hev : event.type = SDL_QUIT)
    (hqueue : env.events 0 = [event]) (hfuel : 1 ≤ fuel) :
    ∃ trace : List sdl_call,
      main argc argv env fuel = some (EXIT_SUCCESS, trace) ∧
      trace =
        [sdl_call.SDL_Init 49 0,
          sdl_call.SDL_CreateWindow window_title SDL_WINDOWPOS_CENTERED SDL_WINDOWPOS_CENTERED
            1280 640 0 env.window,
          sdl_call.SDL_CreateRenderer env.window (-1) SDL_RENDERER_ACCELERATED env.renderer,
          sdl_call.SDL_SetRenderDrawColor env.renderer 255 255 0 255,
          sdl_call.SDL_RenderClear env.renderer,
          sdl_call.SDL_PollEvent (some event),
          sdl_call.SDL_Delay 16,
          sdl_call.SDL_RenderPresent env.renderer,
          sdl_call.SDL_DestroyRenderer env.renderer,
          sdl_call.SDL_DestroyWindow env.window,
          sdl_call.SDL_Quit] ∧
      delays trace = [16] ∧ presents trace = [env.renderer] ∧
      (delays trace).length ≤ 1 ∧ (presents trace).length ≤ 1 ∧
      released trace = [resource.renderer env.renderer, resource.window env.window,
        resource.subsystem] := by
  obtain ⟨f, rfl⟩ : ∃ f, fuel = f + 1 := ⟨fuel - 1, by omega⟩
  have hrun : ({ state := emulator_state_t.RUNNING } : chip8_t).state ≠ emulator_state_t.QUIT := by
    decide
  have hin : handle_input { state := emulator_state_t.RUNNING } ([] ++ env.events 0) =
      ({ state := emulator_state_t.QUIT }, [], [sdl_call.SDL_PollEvent (some event)]) := by
    rw [hqueue]
    exact handle_input_cons_terminal _ event [] (Or.inl hev)
  have hbody : loop_body (sdl_of env) env { state := emulator_state_t.RUNNING } [] 0 =
      ({ state := emulator_state_t.QUIT }, [],
        [sdl_call.SDL_PollEvent (some event), sdl_call.SDL_Delay 16,
          sdl_call.SDL_RenderPresent env.renderer]) := by
    simp only [loop_body, hin, update_screen, sdl_of]
    rfl
  have hloop : main_loop (sdl_of env) env (f + 1) { state := emulator_state_t.RUNNING } [] 0 =
      some ({ state := emulator_state_t.QUIT },
        [sdl_call.SDL_PollEvent (some event), sdl_call.SDL_Delay 16,
          sdl_call.SDL_RenderPresent env.renderer]) := by
    rw [main_loop_succ _ _ _ _ _ _ hrun, hbody, main_loop_quit _ _ _ _ _ _ rfl]
    rfl
  refine ⟨_, ?_, rfl, ?_, ?_, ?_, ?_, ?_⟩
  · rw [main_of_startup_ok argc argv env (f + 1) hok, hloop]
    simp [startup_trace, final_cleanup, sdl_of]
  · simp [delays]
  · simp [presents]
  · simp [delays]
  · simp [presents]
  · simp [released]

theorem main_single_close_event_witness :
    ∃ trace : List sdl_call,
      main 1 ["chip8"] env_close 1 = some (EXIT_SUCCESS, trace) ∧
      delays trace = [16] ∧
      released trace = [resource.renderer 2, resource.window 1, resource.subsystem] := by
  obtain ⟨trace, h1, _, h3, _, _, _, h7⟩ :=
    main_single_close_event 1 ["chip8"] env_close 1 { type := SDL_QUIT, sym := 0 }
      (by decide) rfl rfl (by decide)
  exact ⟨trace, h1, h3, h7⟩

end YAC8E
